import Mathlib

/-!
Verification of the incentive & payroll calculation engine of the
pet-hub-payroll repository.

Source files embedded here:
* `backend/src/utils/payrollCalculations.ts` — rate formulas, the single
  incentive calculator and the default incentive configuration table;
* the incentive-sheet routes file (shared types, distribution
  configuration, `calculateDistributions`, the daily-input batch upsert,
  and `recalculatePayrollTotals`);
* the incentive routes file (`recalculatePayrollTotals`, the bulk
  per-employee incentive path) together with a legacy copy of the same
  routes file that still carries the 1.25x overtime variant.

Money values are JavaScript numbers in the source; they are embedded as
exact rationals, with `Math.round(x * 100) / 100` embedded as `round2`.
JavaScript `Math.round` rounds half toward positive infinity, i.e.
`Math.round x = Int.floor (x + 1/2)`.
-/

namespace PetHub

/-- JS `Math.round(q * 100) / 100` — round to 2 decimals, half up. -/
def round2 (q : ℚ) : ℚ := ((Int.floor (q * 100 + 1/2) : ℤ) : ℚ) / 100

/-- Prisma enum `PositionType`. -/
inductive PositionType where
  | RESIDENT_VETERINARIAN
  | JUNIOR_VETERINARIAN
  | GROOMER
  | GROOMER_VET_ASSISTANT
  | VETERINARY_ASSISTANT
  | VETERINARY_NURSE
  | CLINIC_SECRETARY
  | STAFF
deriving DecidableEq, Repr

-- ===== payrollCalculations.ts : rate formulas =====

def DEFAULT_WORKING_DAYS_PER_MONTH : ℚ := 22
def DEFAULT_WORKING_HOURS_PER_DAY : ℚ := 8
def ANNUAL_WORKING_DAYS : ℚ := 313

/-- Function `usesAnnualFormula`: every position except RESIDENT_VETERINARIAN. -/
def usesAnnualFormula (position : PositionType) : Bool :=
  position != PositionType.RESIDENT_VETERINARIAN

structure Rates where
  ratePerDay : ℚ
  ratePerHour : ℚ
deriving DecidableEq, Repr

/-- Function `calculateMonthlyRates`: Rate/Day = Salary ÷ D, Rate/Hour = Rate/Day ÷ H. -/
def calculateMonthlyRates (monthlySalary workingDaysPerMonth workingHoursPerDay : ℚ) :
    Rates :=
  let ratePerDay := round2 (monthlySalary / workingDaysPerMonth)
  { ratePerDay := ratePerDay
    ratePerHour := round2 (ratePerDay / workingHoursPerDay) }

/-- Function `calculateAnnualRates`: Rate/Day = (Salary × 12) ÷ 313, Rate/Hour = Rate/Day ÷ 8. -/
def calculateAnnualRates (monthlySalary : ℚ) : Rates :=
  let annualSalary := monthlySalary * 12
  let ratePerDay := round2 (annualSalary / ANNUAL_WORKING_DAYS)
  { ratePerDay := ratePerDay
    ratePerHour := round2 (ratePerDay / 8) }

/-- Function `calculateEmployeeRates`: annual formula for everyone except resident
veterinarians, who use the branch D/H monthly formula. -/
def calculateEmployeeRates (monthlySalary : ℚ) (position : PositionType)
    (workingDaysPerMonth workingHoursPerDay : ℚ) : Rates :=
  if usesAnnualFormula position then
    calculateAnnualRates monthlySalary
  else
    calculateMonthlyRates monthlySalary workingDaysPerMonth workingHoursPerDay

-- ===== payrollCalculations.ts : calculateIncentive =====

/-- Input record `IncentiveCalculationInput`. Its `formulaType` is carried as a string so
that malformed values are representable (the TS enum is string-valued);
`numEligible` is optional as in the source. -/
structure IncentiveCalculationInput where
  type : String
  count : ℚ
  inputValue : ℚ
  rate : ℚ
  formulaType : String
  numEligible : Option ℚ := none

structure IncentiveCalculationResult where
  amount : ℚ
  formula : String
deriving DecidableEq, Repr

/-- Rendering used inside formula trace strings (the exact locale text of
`toLocaleString` is a display concern per the spec; the numeric content is
what matters). -/
def pesoText (q : ℚ) : String := toString q

/-- Function `calculateIncentive` from payrollCalculations.ts.  The JS guard
`input.numEligible && input.numEligible > 0 ? input.numEligible : 0`
coerces an absent, zero or negative divisor to 0. -/
def calculateIncentive (input : IncentiveCalculationInput) :
    IncentiveCalculationResult :=
  let numEligible : ℚ :=
    match input.numEligible with
    | some n => if 0 < n then n else 0
    | none => 0
  if input.formulaType = "COUNT_MULTIPLY" then
    let totalPay := input.count * input.rate
    if 1 < numEligible then
      { amount := round2 (totalPay / numEligible)
        formula := "(" ++ pesoText input.count ++ " × ₱" ++ pesoText input.rate ++
          ") ÷ " ++ pesoText numEligible ++ " = ₱" ++ pesoText (round2 (totalPay / numEligible)) }
    else
      { amount := round2 totalPay
        formula := pesoText input.count ++ " × ₱" ++ pesoText input.rate ++
          " = ₱" ++ pesoText (round2 totalPay) }
  else if input.formulaType = "PERCENT" then
    let amount := input.inputValue * input.rate
    { amount := round2 amount
      formula := "₱" ++ pesoText input.inputValue ++ " × " ++
        pesoText (input.rate * 100) ++ "% = ₱" ++ pesoText (round2 amount) }
  else
    { amount := round2 0, formula := "" }

example :
    (calculateIncentive
      { type := "CBC", count := 5, inputValue := 0, rate := 50,
        formulaType := "COUNT_MULTIPLY" }).amount = 250 := by
  norm_num [calculateIncentive, round2]

lemma usesAnnualFormula_iff (p : PositionType) :
    usesAnnualFormula p = true ↔ p ≠ PositionType.RESIDENT_VETERINARIAN := by
  simp [usesAnnualFormula, bne_iff_ne]

example :
    (calculateEmployeeRates 45000 PositionType.GROOMER 22 8).ratePerDay
      = 1725.24 := by
  rw [calculateEmployeeRates, if_pos ((usesAnnualFormula_iff _).mpr (by decide))]
  norm_num [calculateAnnualRates, ANNUAL_WORKING_DAYS, round2]

-- ===== incentive-sheet routes : distribution configuration =====

/-- An employee row as selected by the sheet routes
(`id`, `name`, `position`). -/
structure Employee where
  id : ℕ
  name : String
  position : PositionType
deriving DecidableEq, Repr

/-- The exclusion map `employeeId -> Set of excluded incentive types`,
embedded as the list of `IncentiveExclusion` rows it is built from. -/
def Exclusions := List (ℕ × String)

/-- Lookup `exclusions.get(e.id)?.has(type)`. -/
def isExcluded (excl : Exclusions) (employeeId : ℕ) (incentiveType : String) : Bool :=
  (List.any excl fun p => p.1 == employeeId && p.2 == incentiveType)

/-- Record `DistConfigItem` from the incentive-sheet routes. -/
structure DistConfigItem where
  rate : ℚ
  label : String
  eligiblePositions : List PositionType
  divisionPositions : Option (List PositionType) := none
  incentiveType : String
  sourceType : Option String := none

def groomingRule : DistConfigItem :=
  { rate := 75
    label := "Grooming"
    eligiblePositions := [PositionType.GROOMER, PositionType.GROOMER_VET_ASSISTANT]
    incentiveType := "GROOMING" }

def surgeryRule : DistConfigItem :=
  { rate := 100
    label := "Surgery"
    eligiblePositions := [PositionType.VETERINARY_ASSISTANT, PositionType.VETERINARY_NURSE,
      PositionType.CLINIC_SECRETARY, PositionType.STAFF, PositionType.GROOMER_VET_ASSISTANT]
    incentiveType := "SURGERY" }

def emergencyRule : DistConfigItem :=
  { rate := 120
    label := "Emergency"
    eligiblePositions := [PositionType.VETERINARY_ASSISTANT, PositionType.VETERINARY_NURSE,
      PositionType.CLINIC_SECRETARY, PositionType.STAFF, PositionType.GROOMER_VET_ASSISTANT]
    incentiveType := "EMERGENCY" }

/-- Only resident vets receive confinement-vet pay, but all vets
(resident + junior) are counted for division. -/
def confinementVetRule : DistConfigItem :=
  { rate := 55
    label := "Confinement (Vet)"
    eligiblePositions := [PositionType.RESIDENT_VETERINARIAN]
    divisionPositions := some [PositionType.RESIDENT_VETERINARIAN,
      PositionType.JUNIOR_VETERINARIAN]
    incentiveType := "CONFINEMENT_VET"
    sourceType := some "CONFINEMENT" }

def confinementStaffRule : DistConfigItem :=
  { rate := 45
    label := "Confinement (Staff)"
    eligiblePositions := [PositionType.VETERINARY_ASSISTANT, PositionType.VETERINARY_NURSE,
      PositionType.CLINIC_SECRETARY, PositionType.STAFF, PositionType.GROOMER_VET_ASSISTANT]
    incentiveType := "CONFINEMENT_ASST"
    sourceType := some "CONFINEMENT" }

/-- Table `DISTRIBUTION_CONFIG`, in `Object.entries` order. -/
def DISTRIBUTION_CONFIG : List (String × DistConfigItem) :=
  [("GROOMING", groomingRule),
   ("SURGERY", surgeryRule),
   ("EMERGENCY", emergencyRule),
   ("CONFINEMENT_VET", confinementVetRule),
   ("CONFINEMENT_STAFF", confinementStaffRule)]

/-- Who RECEIVES the incentive (excluding those marked as NOT INCLUDED). -/
def receiversOf (config : DistConfigItem) (employees : List Employee)
    (exclusions : Exclusions) : List Employee :=
  employees.filter fun e =>
    config.eligiblePositions.contains e.position &&
      !(isExcluded exclusions e.id config.incentiveType)

/-- Who is counted for DIVISION; `config.divisionPositions ||
config.eligiblePositions` (an empty array is truthy in JS, so `Option.getD`
matches `||` on this field exactly). -/
def divisionOf (config : DistConfigItem) (employees : List Employee)
    (exclusions : Exclusions) : List Employee :=
  employees.filter fun e =>
    (config.divisionPositions.getD config.eligiblePositions).contains e.position &&
      !(isExcluded exclusions e.id config.incentiveType)

/-- Record `DistributionResult` from the incentive-sheet routes. -/
structure DistributionResult where
  employeeId : ℕ
  employeeName : String
  incentiveType : String
  total : ℚ
  rate : ℚ
  numEligible : ℕ
  amount : ℚ
  formula : String
deriving DecidableEq, Repr

/-- The formula trace string of a distribution entry. -/
def distFormula (total rate : ℚ) (divisionCount : ℕ) (amount : ℚ) : String :=
  "(" ++ pesoText total ++ " × ₱" ++ pesoText rate ++ ") ÷ " ++
    toString divisionCount ++ " = ₱" ++ pesoText amount

/-- One iteration of the `calculateDistributions` loop, for the rule at
config key `configKey`: skip when the source-type total is 0, skip when
nobody receives, otherwise pay every receiver the pooled total divided by
`divisionCount` (treating an empty division pool as a divisor of 1). -/
def ruleEntries (totals : String → ℚ) (employees : List Employee)
    (exclusions : Exclusions) (configKey : String) (config : DistConfigItem) :
    List DistributionResult :=
  let sourceType := config.sourceType.getD configKey
  let total := totals sourceType
  if total = 0 then []
  else
    let receivers := receiversOf config employees exclusions
    if receivers.length = 0 then []
    else
      let divisionCount := (divisionOf config employees exclusions).length
      let totalPay := total * config.rate
      let perPerson := totalPay / (if 0 < divisionCount then (divisionCount : ℚ) else 1)
      receivers.map fun emp =>
        { employeeId := emp.id
          employeeName := emp.name
          incentiveType := config.incentiveType
          total := total
          rate := config.rate
          numEligible := divisionCount
          amount := round2 perPerson
          formula := distFormula total config.rate divisionCount (round2 perPerson) }

/-- Function `calculateDistributions` (totals, employees, exclusions ↦ distribution
entries), iterating the five configured rules in order. -/
def calculateDistributions (totals : String → ℚ) (employees : List Employee)
    (exclusions : Exclusions) : List DistributionResult :=
  DISTRIBUTION_CONFIG.foldr
    (fun kc acc => ruleEntries totals employees exclusions kc.1 kc.2 ++ acc) []

-- ===== payrollCalculations.ts : DEFAULT_INCENTIVE_CONFIG =====

structure IncentiveConfigItem where
  type : String
  name : String
  rate : ℚ
  formulaType : String
  description : String
  positions : List PositionType
  sortOrder : ℕ
  isShared : Bool := false
  divisionPositions : Option (List PositionType) := none

def DEFAULT_INCENTIVE_CONFIG : List IncentiveConfigItem :=
  [{ type := "CBC", name := "CBC (Complete Blood Count)", rate := 50,
     formulaType := "COUNT_MULTIPLY", description := "Count × ₱50 per procedure",
     positions := [PositionType.RESIDENT_VETERINARIAN, PositionType.JUNIOR_VETERINARIAN],
     sortOrder := 1 },
   { type := "BLOOD_CHEM", name := "Blood Chemistry", rate := 100,
     formulaType := "COUNT_MULTIPLY", description := "Count × ₱100 per procedure",
     positions := [PositionType.RESIDENT_VETERINARIAN, PositionType.JUNIOR_VETERINARIAN],
     sortOrder := 2 },
   { type := "ULTRASOUND", name := "Ultrasound", rate := 100,
     formulaType := "COUNT_MULTIPLY", description := "Count × ₱100 per procedure",
     positions := [PositionType.RESIDENT_VETERINARIAN, PositionType.JUNIOR_VETERINARIAN],
     sortOrder := 3 },
   { type := "TEST_KITS", name := "Test Kits", rate := 50,
     formulaType := "COUNT_MULTIPLY", description := "Count × ₱50 per test",
     positions := [PositionType.RESIDENT_VETERINARIAN, PositionType.JUNIOR_VETERINARIAN],
     sortOrder := 4 },
   { type := "XRAY", name := "X-Ray", rate := 100,
     formulaType := "COUNT_MULTIPLY", description := "Count × ₱100 per X-ray",
     positions := [PositionType.RESIDENT_VETERINARIAN, PositionType.JUNIOR_VETERINARIAN],
     sortOrder := 5 },
   { type := "SURGERY", name := "Surgery", rate := 0.10,
     formulaType := "PERCENT", description := "Total Surgery Amount × 10%",
     positions := [PositionType.RESIDENT_VETERINARIAN, PositionType.JUNIOR_VETERINARIAN,
       PositionType.VETERINARY_ASSISTANT, PositionType.VETERINARY_NURSE,
       PositionType.STAFF, PositionType.GROOMER],
     sortOrder := 6 },
   { type := "EMERGENCY", name := "Emergency", rate := 0.40,
     formulaType := "PERCENT", description := "Total Emergency Amount × 40%",
     positions := [PositionType.RESIDENT_VETERINARIAN, PositionType.JUNIOR_VETERINARIAN,
       PositionType.VETERINARY_ASSISTANT, PositionType.VETERINARY_NURSE,
       PositionType.STAFF, PositionType.GROOMER],
     sortOrder := 7 },
   { type := "CONFINEMENT_VET", name := "Confinement (Vet)", rate := 55,
     formulaType := "COUNT_MULTIPLY",
     description := "Total units × ₱55 ÷ all vets (Resident Vets only receive)",
     positions := [PositionType.RESIDENT_VETERINARIAN],
     sortOrder := 8, isShared := true,
     divisionPositions := some [PositionType.RESIDENT_VETERINARIAN,
       PositionType.JUNIOR_VETERINARIAN] },
   { type := "CONFINEMENT_ASST", name := "Confinement (Assistant)", rate := 45,
     formulaType := "COUNT_MULTIPLY",
     description := "Total units × ₱45 ÷ eligible staff",
     positions := [PositionType.VETERINARY_ASSISTANT, PositionType.GROOMER_VET_ASSISTANT,
       PositionType.VETERINARY_NURSE, PositionType.STAFF, PositionType.GROOMER],
     sortOrder := 9, isShared := true },
   { type := "GROOMING", name := "Grooming", rate := 75,
     formulaType := "COUNT_MULTIPLY",
     description := "Total units × ₱75 ÷ eligible groomers",
     positions := [PositionType.GROOMER, PositionType.GROOMER_VET_ASSISTANT],
     sortOrder := 10, isShared := true },
   { type := "NURSING", name := "Nursing", rate := 80,
     formulaType := "COUNT_MULTIPLY",
     description := "Count × ₱80 per nursing case",
     positions := [PositionType.VETERINARY_NURSE, PositionType.VETERINARY_ASSISTANT,
       PositionType.STAFF, PositionType.GROOMER],
     sortOrder := 11, isShared := true }]

/-- Function `isSharedIncentiveType`: `config?.isShared === true`. -/
def isSharedIncentiveType (ty : String) : Bool :=
  match DEFAULT_INCENTIVE_CONFIG.find? (fun c => c.type == ty) with
  | some c => c.isShared
  | none => false

-- ===== incentive routes : PUT /payroll/:payrollId/bulk per-entry calculation =====

/-- The per-entry amount computation of the bulk per-employee incentive
path.  `GROOMING` and `NURSING` are NOT divided when entered individually:
`shouldDivide = isSharedIncentiveType(type) && type !== GROOMING && type
!== NURSING`, and `numEligible` is `eligibleCountsMap[type] || 1` when
dividing, `undefined` otherwise. -/
def bulkIncentiveResult (ty : String) (count inputValue rate : ℚ)
    (formulaType : String) (eligibleCount : ℕ) : IncentiveCalculationResult :=
  let shouldDivide := isSharedIncentiveType ty && ty != "GROOMING" && ty != "NURSING"
  let numEligible : Option ℚ :=
    if shouldDivide then some (if eligibleCount = 0 then 1 else (eligibleCount : ℚ))
    else none
  calculateIncentive
    { type := ty, count := count, inputValue := inputValue, rate := rate,
      formulaType := formulaType, numEligible := numEligible }

-- ===== incentive-sheet routes : PUT /:id/inputs (daily-input batch upsert) =====

/-- A stored `DailyIncentiveInput` row (and also a batch entry): the sheet
is fixed, dates are abstracted to day numbers. -/
structure DailyInput where
  date : ℕ
  type : String
  value : ℚ
deriving DecidableEq, Repr

/-- Process one batch entry against the stored rows of the sheet: value 0
deletes any (date, type) row, otherwise the row is upserted (the (sheet,
date, type) key is unique, so the update branch is a map over the matching
key). -/
def processInput (rows : List DailyInput) (entry : DailyInput) : List DailyInput :=
  if entry.value = 0 then
    rows.filter fun r => !(r.date == entry.date && r.type == entry.type)
  else if rows.any (fun r => r.date == entry.date && r.type == entry.type) then
    rows.map fun r =>
      if r.date == entry.date && r.type == entry.type then
        { r with value := entry.value }
      else r
  else
    rows ++ [entry]

/-- The `for (const input of inputs)` loop of the batch handler. -/
def processBatch (rows : List DailyInput) (inputs : List DailyInput) : List DailyInput :=
  inputs.foldl processInput rows

/-- Period total for one type: `dailyInputs.filter(type).reduce(sum)`. -/
def totalForType (rows : List DailyInput) (ty : String) : ℚ :=
  ((rows.filter fun r => r.type == ty).map DailyInput.value).sum

-- ===== recalculatePayrollTotals (current and legacy variants) =====

/-- The mutable fields of a `PayrollPeriod` row used by the totals
recalculation.  Attendance counts are integers in the schema; holiday
units, hours and money are decimals. -/
structure PayrollState where
  workingDays : ℤ
  dayOff : ℤ
  absences : ℤ
  totalDaysPresent : ℤ
  holidays : ℚ
  holidayRate : ℚ
  overtimeHours : ℚ
  lateMinutes : ℚ
  mealAllowance : ℚ
  silPay : ℚ
  birthdayLeave : ℚ
  totalIncentives : ℚ
  totalDeductions : ℚ
  basicPay : ℚ
  holidayPay : ℚ
  overtimePay : ℚ
  grossPay : ℚ
  netPay : ℚ
deriving DecidableEq, Repr

/-- Function `recalculatePayrollTotals` as it stands in the current incentive
routes and in the incentive-sheet routes (identical bodies):
`totalDaysPresent` is recomputed as workingDays − dayOff − absences and
written back, overtime carries no multiplier, and the monetary outputs are
rounded to 2 decimals on storage.  The incentive and deduction sums are
passed in as the lists of row amounts the function reads back. -/
def recalculatePayrollTotals (ratePerDay ratePerHour : ℚ)
    (incentiveAmounts deductionAmounts : List ℚ) (p : PayrollState) : PayrollState :=
  let totalIncentives := incentiveAmounts.sum
  let totalDeductions := deductionAmounts.sum
  let calculatedDaysPresent := p.workingDays - p.dayOff - p.absences
  let basicPay := ratePerDay * (calculatedDaysPresent : ℚ)
  let holidayPay := p.holidays * ratePerDay
  let overtimePay := ratePerHour * p.overtimeHours
  let lateDeduction := ratePerHour * (p.lateMinutes / 60)
  let grossPay := basicPay + holidayPay + overtimePay + totalIncentives +
    p.mealAllowance + p.silPay + p.birthdayLeave
  let netPay := grossPay - totalDeductions - lateDeduction
  { p with
      totalDaysPresent := calculatedDaysPresent
      totalIncentives := totalIncentives
      totalDeductions := totalDeductions
      basicPay := round2 basicPay
      holidayPay := round2 holidayPay
      overtimePay := round2 overtimePay
      grossPay := round2 grossPay
      netPay := round2 netPay }

/-- The legacy `recalculatePayrollTotals` found in the older copy of the
incentive routes file: basic pay uses the STORED `totalDaysPresent` (no
recompute, and the field is not written back), holiday pay carries the
`holidayRate` factor, and overtime is paid at a 1.25× premium. -/
def recalculatePayrollTotalsLegacy (ratePerDay ratePerHour : ℚ)
    (incentiveAmounts deductionAmounts : List ℚ) (p : PayrollState) : PayrollState :=
  let totalIncentives := incentiveAmounts.sum
  let totalDeductions := deductionAmounts.sum
  let basicPay := ratePerDay * (p.totalDaysPresent : ℚ)
  let holidayPay := ratePerDay * p.holidayRate * p.holidays
  let overtimePay := ratePerHour * 1.25 * p.overtimeHours
  let lateDeduction := ratePerHour * (p.lateMinutes / 60)
  let grossPay := basicPay + holidayPay + overtimePay + totalIncentives +
    p.mealAllowance + p.silPay + p.birthdayLeave
  let netPay := grossPay - totalDeductions - lateDeduction
  { p with
      totalIncentives := totalIncentives
      totalDeductions := totalDeductions
      basicPay := round2 basicPay
      holidayPay := round2 holidayPay
      overtimePay := round2 overtimePay
      grossPay := round2 grossPay
      netPay := round2 netPay }

-- ===== incentive-sheet routes : POST /:id/distribute (apply to payrolls) =====

/-- An `Incentive` child row as written by the distribute handler. -/
structure IncRow where
  type : String
  count : ℚ
  rate : ℚ
  amount : ℚ
  formula : String
deriving DecidableEq, Repr

/-- The slice of a `PayrollPeriod` the distribute handler touches: its id,
its employee and its incentive child rows (the period dates are fixed by
the query that produced the list). -/
structure PayrollRow where
  pid : ℕ
  employeeId : ℕ
  incentives : List IncRow
deriving DecidableEq, Repr

/-- The row written for a distribution entry: `count = dist.total`,
`rate = dist.rate`, `amount = round2(dist.amount)`, `formula =
dist.formula`. -/
def distIncRow (d : DistributionResult) : IncRow :=
  { type := d.incentiveType
    count := d.total
    rate := d.rate
    amount := round2 d.amount
    formula := d.formula }

/-- Prisma `findFirst` + `update`: overwrite the first incentive row of the
entry's type. -/
def updateFirstRow : List IncRow → DistributionResult → List IncRow
  | [], _ => []
  | r :: rs, d =>
    if r.type == d.incentiveType then
      { r with
          count := d.total
          rate := d.rate
          amount := round2 d.amount
          formula := d.formula } :: rs
    else r :: updateFirstRow rs d

/-- Upsert the incentive row for a distribution entry on one payroll:
update the existing row of that type if present, create it otherwise. -/
def upsertIncRow (l : List IncRow) (d : DistributionResult) : List IncRow :=
  if l.any (fun r => r.type == d.incentiveType) then updateFirstRow l d
  else l ++ [distIncRow d]

/-- Lookup `payrollMap.get(dist.employeeId)`: the `Map` constructor keeps the
LAST entry per key, and the handler then updates that payroll by id. -/
def lookupPayrollId (ps : List PayrollRow) (employeeId : ℕ) : Option ℕ :=
  ((ps.filter fun p => p.employeeId == employeeId).map PayrollRow.pid).getLast?

/-- Apply one distribution entry: skipped silently when the receiver has
no matching payroll. -/
def applyDistribution (ps : List PayrollRow) (d : DistributionResult) :
    List PayrollRow :=
  match lookupPayrollId ps d.employeeId with
  | none => ps
  | some pid =>
      ps.map fun p =>
        if p.pid == pid then { p with incentives := upsertIncRow p.incentives d }
        else p

/-- The `for (const dist of distributions)` loop. -/
def applyDistributions (ps : List PayrollRow) (ds : List DistributionResult) :
    List PayrollRow :=
  ds.foldl applyDistribution ps

/-- One run of the distribute handler restricted to the incentive rows it
writes: compute the distribution entries from the sheet totals, roster and
exclusions, and upsert them into the matching payrolls. -/
def distributeRun (totals : String → ℚ) (employees : List Employee)
    (exclusions : Exclusions) (ps : List PayrollRow) : List PayrollRow :=
  applyDistributions ps (calculateDistributions totals employees exclusions)

-- ===================================================================
-- Theorems
-- ===================================================================

/-- C5: the single-incentive calculator: COUNT_MULTIPLY with no divisor
(or a divisor ≤ 1) yields round2(count × rate); COUNT_MULTIPLY with a
divisor > 1 yields round2((count × rate) ÷ numEligible); PERCENT yields
round2(inputValue × rate) and ignores count; any other formula type
yields 0.  The function is total, so it cannot throw. -/
theorem calculateIncentive_formula_cases (i : IncentiveCalculationInput) :
    (i.formulaType = "COUNT_MULTIPLY" → i.numEligible = none →
      (calculateIncentive i).amount = round2 (i.count * i.rate))
    ∧ (i.formulaType = "COUNT_MULTIPLY" → ∀ n, i.numEligible = some n → n ≤ 1 →
      (calculateIncentive i).amount = round2 (i.count * i.rate))
    ∧ (i.formulaType = "COUNT_MULTIPLY" → ∀ n, i.numEligible = some n → 1 < n →
      (calculateIncentive i).amount = round2 (i.count * i.rate / n))
    ∧ (i.formulaType = "PERCENT" →
      (calculateIncentive i).amount = round2 (i.inputValue * i.rate)
      ∧ ∀ c, (calculateIncentive { i with count := c }).amount
          = (calculateIncentive i).amount)
    ∧ (i.formulaType ≠ "COUNT_MULTIPLY" → i.formulaType ≠ "PERCENT" →
      (calculateIncentive i).amount = 0) := by
  obtain ⟨ty, count, iv, rate, ft, ne⟩ := i
  refine ⟨?_, ?_, ?_, ?_, ?_⟩
  · intro hft hne
    simp only at hft hne
    subst hft hne
    norm_num [calculateIncentive]
  · intro hft n hne hn
    simp only at hft hne
    subst hft hne
    by_cases h0 : (0 : ℚ) < n
    · simp [calculateIncentive, h0, not_lt.mpr hn]
    · norm_num [calculateIncentive, h0]
  · intro hft n hne hn
    simp only at hft hne
    subst hft hne
    simp [calculateIncentive, lt_trans one_pos hn, hn]
  · intro hft
    simp only at hft
    subst hft
    exact ⟨by simp [calculateIncentive], fun c => by simp [calculateIncentive]⟩
  · intro h1 h2
    simp only at h1 h2
    simp only [calculateIncentive, if_neg h1, if_neg h2]
    norm_num [round2]

/-- Witness for C5 at concrete inputs: unpooled CBC 5 × ₱50 = ₱250,
pooled 10 × ₱55 ÷ 4 = ₱137.50, PERCENT ₱34550 × 10% = ₱3455, and a bogus
formula type gives 0. -/
theorem calculateIncentive_formula_cases_witness :
    (calculateIncentive
      { type := "CBC"
        count := 5
        inputValue := 0
        rate := 50
        formulaType := "COUNT_MULTIPLY" }).amount = round2 (5 * 50)
    ∧ (calculateIncentive
      { type := "CONFINEMENT_VET"
        count := 10
        inputValue := 0
        rate := 55
        formulaType := "COUNT_MULTIPLY"
        numEligible := some 4 }).amount = round2 (10 * 55 / 4)
    ∧ (calculateIncentive
      { type := "SURGERY"
        count := 3
        inputValue := 34550
        rate := 0.10
        formulaType := "PERCENT" }).amount = round2 (34550 * 0.10)
    ∧ (calculateIncentive
      { type := "CBC"
        count := 3
        inputValue := 4
        rate := 5
        formulaType := "BOGUS" }).amount = 0 :=
  ⟨(calculateIncentive_formula_cases _).1 rfl rfl,
   (calculateIncentive_formula_cases _).2.2.1 rfl 4 rfl (by norm_num),
   ((calculateIncentive_formula_cases _).2.2.2.1 rfl).1,
   (calculateIncentive_formula_cases _).2.2.2.2 (by decide) (by decide)⟩

/-- C6: rate derivation — a resident veterinarian's rates come from the
branch working-days/hours settings (salary ÷ D, then ÷ H); every other
position uses the annual formula (salary × 12 ÷ 313, then ÷ 8) regardless
of the branch settings; in particular salary 45000 in a
non-branch-dependent position yields ratePerDay 1725.24. -/
theorem calculateEmployeeRates_spec (salary D H : ℚ) (pos : PositionType)
    (_hs : 0 < salary) :
    calculateEmployeeRates salary PositionType.RESIDENT_VETERINARIAN D H
      = { ratePerDay := round2 (salary / D)
          ratePerHour := round2 (round2 (salary / D) / H) }
    ∧ (pos ≠ PositionType.RESIDENT_VETERINARIAN →
      calculateEmployeeRates salary pos D H
        = { ratePerDay := round2 (salary * 12 / 313)
            ratePerHour := round2 (round2 (salary * 12 / 313) / 8) })
    ∧ (pos ≠ PositionType.RESIDENT_VETERINARIAN →
      (calculateEmployeeRates 45000 pos D H).ratePerDay = 1725.24) := by
  refine ⟨?_, fun hpos => ?_, fun hpos => ?_⟩
  · rw [calculateEmployeeRates, if_neg (by decide)]
    rfl
  · rw [calculateEmployeeRates, if_pos ((usesAnnualFormula_iff _).mpr hpos)]
    rfl
  · rw [calculateEmployeeRates, if_pos ((usesAnnualFormula_iff _).mpr hpos)]
    norm_num [calculateAnnualRates, ANNUAL_WORKING_DAYS, round2]

/-- Witness for C6: salary 45000, position GROOMER, branch D=22/H=8. -/
theorem calculateEmployeeRates_spec_witness :
    (0 : ℚ) < 45000
    ∧ (calculateEmployeeRates 45000 PositionType.GROOMER 22 8).ratePerDay
        = 1725.24 :=
  ⟨by norm_num,
   (calculateEmployeeRates_spec 45000 22 8 PositionType.GROOMER
     (by norm_num)).2.2 (by decide)⟩

/-- Subtracting a whole number of cents commutes with rounding to cents. -/
lemma round2_sub_intCents (x : ℚ) (k : ℤ) :
    round2 (x - (k : ℚ) / 100) = round2 x - (k : ℚ) / 100 := by
  unfold round2
  rw [show (x - (k : ℚ) / 100) * 100 + 1/2 = (x * 100 + 1/2) - (k : ℚ) by ring,
    Int.floor_sub_int]
  push_cast
  ring

/-- An all-zero payroll state, used as the base of concrete payroll
scenarios. -/
def basePayroll : PayrollState :=
  { workingDays := 0, dayOff := 0, absences := 0, totalDaysPresent := 0
    holidays := 0, holidayRate := 0, overtimeHours := 0, lateMinutes := 0
    mealAllowance := 0, silPay := 0, birthdayLeave := 0
    totalIncentives := 0, totalDeductions := 0
    basicPay := 0, holidayPay := 0, overtimePay := 0, grossPay := 0, netPay := 0 }

/-- Counterexample to C4.  (a) The legacy totals recalculation keeps a
stale stored `totalDaysPresent = 99` instead of recomputing
`15 − 2 − 1 = 12`.  (b) Even for the current recalculation, with
ratePerHour = 100 and lateMinutes = 10 the late deduction is 50/3
(a non-integer number of cents), so the stored (rounded) netPay 983.33
differs from stored grossPay − totalDeductions − lateDeduction = 2950/3. -/
theorem recalculatePayrollTotals_claim_counterexample :
    (recalculatePayrollTotalsLegacy 100 100 [] []
      { basePayroll with
          workingDays := 15, dayOff := 2, absences := 1,
          totalDaysPresent := 99 }).totalDaysPresent = 99
    ∧ (99 : ℤ) ≠ 15 - 2 - 1
    ∧ (recalculatePayrollTotals 100 100 [] []
      { basePayroll with
          workingDays := 10, totalDaysPresent := 10,
          lateMinutes := 10 }).netPay = 983.33
    ∧ (recalculatePayrollTotals 100 100 [] []
      { basePayroll with
          workingDays := 10, totalDaysPresent := 10,
          lateMinutes := 10 }).grossPay
      - (recalculatePayrollTotals 100 100 [] []
        { basePayroll with
            workingDays := 10, totalDaysPresent := 10,
            lateMinutes := 10 }).totalDeductions
      - 100 * ((10 : ℚ) / 60) = 2950 / 3
    ∧ (983.33 : ℚ) ≠ 2950 / 3 := by
  refine ⟨rfl, by decide, ?_, ?_, by norm_num⟩
  · norm_num [recalculatePayrollTotals, basePayroll, round2]
  · norm_num [recalculatePayrollTotals, basePayroll, round2]

/-- C4 amended: the CURRENT totals recalculation (the identical copies in
the incentive routes and the incentive-sheet routes) always recomputes
`totalDaysPresent = workingDays − dayOff − absences`, overwriting the
stored value (the legacy variant does not, see the counterexample); the
stored netPay is round2(raw grossPay − totalDeductions − lateDeduction),
which equals stored grossPay − totalDeductions − lateDeduction exactly
whenever totalDeductions + lateDeduction is a whole number of cents. -/
theorem recalculatePayrollTotals_amended (rd rh : ℚ) (incs decs : List ℚ)
    (p : PayrollState) :
    (recalculatePayrollTotals rd rh incs decs p).totalDaysPresent
      = p.workingDays - p.dayOff - p.absences
    ∧ (recalculatePayrollTotals rd rh incs decs p).netPay
      = round2 ((rd * ((p.workingDays - p.dayOff - p.absences : ℤ) : ℚ)
          + p.holidays * rd + rh * p.overtimeHours + incs.sum
          + p.mealAllowance + p.silPay + p.birthdayLeave)
          - decs.sum - rh * (p.lateMinutes / 60))
    ∧ ∀ k : ℤ, decs.sum + rh * (p.lateMinutes / 60) = (k : ℚ) / 100 →
      (recalculatePayrollTotals rd rh incs decs p).netPay
        = (recalculatePayrollTotals rd rh incs decs p).grossPay
          - (recalculatePayrollTotals rd rh incs decs p).totalDeductions
          - rh * (p.lateMinutes / 60) := by
  refine ⟨rfl, rfl, fun k hk => ?_⟩
  simp only [recalculatePayrollTotals]
  rw [show rd * ((p.workingDays - p.dayOff - p.absences : ℤ) : ℚ)
      + p.holidays * rd + rh * p.overtimeHours + incs.sum
      + p.mealAllowance + p.silPay + p.birthdayLeave
      - decs.sum - rh * (p.lateMinutes / 60)
    = (rd * ((p.workingDays - p.dayOff - p.absences : ℤ) : ℚ)
      + p.holidays * rd + rh * p.overtimeHours + incs.sum
      + p.mealAllowance + p.silPay + p.birthdayLeave)
      - ((k : ℚ) / 100) by rw [← hk]; ring]
  rw [round2_sub_intCents, ← hk]
  ring

/-- Witness for the amended C4: ratePerHour = 100, lateMinutes = 30 (a
late deduction of exactly ₱50) and a single deduction row of ₱12.34, so
deductions + late deduction = 62.34 is a whole number of cents. -/
theorem recalculatePayrollTotals_amended_witness :
    (recalculatePayrollTotals 100 100 [] [12.34]
      { basePayroll with workingDays := 10, lateMinutes := 30 }).netPay
      = (recalculatePayrollTotals 100 100 [] [12.34]
        { basePayroll with workingDays := 10, lateMinutes := 30 }).grossPay
        - (recalculatePayrollTotals 100 100 [] [12.34]
          { basePayroll with workingDays := 10, lateMinutes := 30 }).totalDeductions
        - 100 * (({ basePayroll with
            workingDays := 10, lateMinutes := 30 } : PayrollState).lateMinutes / 60) :=
  (recalculatePayrollTotals_amended 100 100 [] [12.34]
    { basePayroll with workingDays := 10, lateMinutes := 30 }).2.2
    6234 (by norm_num [basePayroll])

/-- Counterexample to C7: the legacy totals recalculation pays overtime
at ratePerHour × 1.25 × overtimeHours — with ratePerHour = 100 and 4
overtime hours it stores 500, while ratePerHour × overtimeHours = 400. -/
theorem overtime_no_multiplier_counterexample :
    (recalculatePayrollTotalsLegacy 0 100 [] []
      { basePayroll with overtimeHours := 4 }).overtimePay = 500
    ∧ (100 : ℚ) * 4 = 400
    ∧ (500 : ℚ) ≠ 400 := by
  refine ⟨?_, by norm_num, by norm_num⟩
  norm_num [recalculatePayrollTotalsLegacy, basePayroll, round2]

/-- C7 amended: the current totals recalculation (both identical copies)
stores overtimePay = round2(ratePerHour × overtimeHours) with no
multiplier; the legacy variant applies a 1.25× premium. -/
theorem overtimePay_formulas (rd rh : ℚ) (incs decs : List ℚ) (p : PayrollState) :
    (recalculatePayrollTotals rd rh incs decs p).overtimePay
      = round2 (rh * p.overtimeHours)
    ∧ (recalculatePayrollTotalsLegacy rd rh incs decs p).overtimePay
      = round2 (rh * 1.25 * p.overtimeHours) :=
  ⟨rfl, rfl⟩

/-- One batch entry keeps the no-zero-rows invariant. -/
lemma processInput_no_zero {rows : List DailyInput} {e : DailyInput}
    (h : ∀ r ∈ rows, r.value ≠ 0) : ∀ r ∈ processInput rows e, r.value ≠ 0 := by
  intro r hr
  unfold processInput at hr
  by_cases hz : e.value = 0
  · rw [if_pos hz] at hr
    exact h r (List.mem_of_mem_filter hr)
  · rw [if_neg hz] at hr
    by_cases hany : rows.any (fun r => r.date == e.date && r.type == e.type) = true
    · rw [if_pos hany] at hr
      obtain ⟨r₀, hr₀, hmap⟩ := List.mem_map.mp hr
      by_cases hc : (r₀.date == e.date && r₀.type == e.type) = true
      · rw [if_pos hc] at hmap
        rw [← hmap]
        exact hz
      · rw [if_neg hc] at hmap
        exact hmap ▸ h r₀ hr₀
    · rw [if_neg hany] at hr
      rcases List.mem_append.mp hr with hmem | hmem
      · exact h r hmem
      · rw [List.mem_singleton.mp hmem]
        exact hz

/-- The whole batch keeps the no-zero-rows invariant. -/
lemma processBatch_no_zero {rows : List DailyInput} (inputs : List DailyInput)
    (h : ∀ r ∈ rows, r.value ≠ 0) : ∀ r ∈ processBatch rows inputs, r.value ≠ 0 := by
  induction inputs generalizing rows with
  | nil => exact h
  | cons e rest ih => exact ih (processInput_no_zero h)

/-- C8: daily-input batches keep the sheet sparse — starting from a sheet
with no zero-valued rows, (1) no row stored after any batch has value 0;
(2) an entry with value 0 is processed as a deletion of the matching
(date, type) row, not stored; (3) after a batch ending in a zero entry no
row with that (date, type) remains; (4) the period total of the zeroed
type is the sum over the remaining rows only — the zeroed cell
contributes nothing. -/
theorem dailyInputs_zero_pruning (rows inputs : List DailyInput)
    (hnz : ∀ r ∈ rows, r.value ≠ 0) :
    (∀ r ∈ processBatch rows inputs, r.value ≠ 0)
    ∧ (∀ e : DailyInput, e.value = 0 →
        processInput rows e
          = rows.filter fun r => !(r.date == e.date && r.type == e.type))
    ∧ (∀ e : DailyInput, e.value = 0 →
        ∀ r ∈ processBatch rows (inputs ++ [e]), ¬(r.date = e.date ∧ r.type = e.type))
    ∧ (∀ e : DailyInput, e.value = 0 →
        totalForType (processBatch rows (inputs ++ [e])) e.type
          = totalForType ((processBatch rows inputs).filter
              fun r => !(r.date == e.date)) e.type) := by
  have hbatch_append : ∀ e : DailyInput,
      processBatch rows (inputs ++ [e])
        = processInput (processBatch rows inputs) e := by
    intro e
    unfold processBatch
    rw [List.foldl_append]
    rfl
  refine ⟨processBatch_no_zero inputs hnz, fun e he => ?_, fun e he r hr => ?_,
    fun e he => ?_⟩
  · unfold processInput
    rw [if_pos he]
  · rw [hbatch_append e] at hr
    unfold processInput at hr
    rw [if_pos he] at hr
    have := List.of_mem_filter hr
    rintro ⟨hd, ht⟩
    simp [hd, ht] at this
  · rw [hbatch_append e]
    unfold processInput
    rw [if_pos he]
    unfold totalForType
    have hfil : List.filter (fun r => r.type == e.type)
        (List.filter (fun r => !(r.date == e.date && r.type == e.type))
          (processBatch rows inputs))
        = List.filter (fun r => r.type == e.type)
          (List.filter (fun r => !(r.date == e.date)) (processBatch rows inputs)) := by
      rw [List.filter_filter, List.filter_filter]
      apply List.filter_congr
      intro r _
      cases hd : r.date == e.date <;> cases ht : r.type == e.type <;> simp [hd, ht]
    rw [hfil]

/-- Witness for C8: a stored GROOMING row for day 1 with value 3 is
deleted by submitting value 0 for the same (date, type). -/
theorem dailyInputs_zero_pruning_witness :
    processInput [⟨1, "GROOMING", 3⟩] ⟨1, "GROOMING", 0⟩ = ([] : List DailyInput) := by
  rw [(dailyInputs_zero_pruning [⟨1, "GROOMING", 3⟩] []
    (by intro r hr; rw [List.mem_singleton.mp hr]; norm_num)).2.1
    ⟨1, "GROOMING", 0⟩ rfl]
  rfl

-- ===== lemmas about calculateDistributions =====

lemma mem_foldr_append {α β : Type} (f : α → List β) (L : List α) (r : β) :
    r ∈ L.foldr (fun a acc => f a ++ acc) [] ↔ ∃ a ∈ L, r ∈ f a := by
  induction L with
  | nil => simp
  | cons a L ih => simp [ih]

lemma mem_calculateDistributions {totals : String → ℚ} {emps : List Employee}
    {excl : Exclusions} {r : DistributionResult} :
    r ∈ calculateDistributions totals emps excl
      ↔ ∃ kc ∈ DISTRIBUTION_CONFIG, r ∈ ruleEntries totals emps excl kc.1 kc.2 :=
  mem_foldr_append _ DISTRIBUTION_CONFIG r

/-- Every entry produced by a rule carries the rule's incentive type. -/
lemma ruleEntries_incentiveType {totals : String → ℚ} {emps : List Employee}
    {excl : Exclusions} {k : String} {c : DistConfigItem} {r : DistributionResult}
    (hr : r ∈ ruleEntries totals emps excl k c) :
    r.incentiveType = c.incentiveType := by
  unfold ruleEntries at hr
  by_cases h0 : totals (c.sourceType.getD k) = 0
  · rw [if_pos h0] at hr
    exact absurd hr (List.not_mem_nil r)
  · rw [if_neg h0] at hr
    by_cases hrec : (receiversOf c emps excl).length = 0
    · rw [if_pos hrec] at hr
      exact absurd hr (List.not_mem_nil r)
    · rw [if_neg hrec] at hr
      obtain ⟨emp, _, heq⟩ := List.mem_map.mp hr
      rw [← heq]

/-- The JS divisor guard `divisionCount > 0 ? divisionCount : 1` is
`max divisionCount 1`. -/
lemma divisor_eq_max (d : ℕ) : (if 0 < d then (d : ℚ) else 1) = ((max d 1 : ℕ) : ℚ) := by
  cases d with
  | zero => simp
  | succ n => simp [Nat.max_eq_left (Nat.succ_le_succ (Nat.zero_le n))]

/-- Every entry produced by a rule carries the pooled per-person amount
round2((total × rate) ÷ max(divisionCount, 1)). -/
lemma ruleEntries_amount {totals : String → ℚ} {emps : List Employee}
    {excl : Exclusions} {k : String} {c : DistConfigItem} {r : DistributionResult}
    (hr : r ∈ ruleEntries totals emps excl k c) :
    r.amount = round2 (totals (c.sourceType.getD k) * c.rate
      / ((max (divisionOf c emps excl).length 1 : ℕ) : ℚ)) := by
  unfold ruleEntries at hr
  by_cases h0 : totals (c.sourceType.getD k) = 0
  · rw [if_pos h0] at hr
    exact absurd hr (List.not_mem_nil r)
  · rw [if_neg h0] at hr
    by_cases hrec : (receiversOf c emps excl).length = 0
    · rw [if_pos hrec] at hr
      exact absurd hr (List.not_mem_nil r)
    · rw [if_neg hrec] at hr
      obtain ⟨emp, _, heq⟩ := List.mem_map.mp hr
      rw [← heq]
      simp only [divisor_eq_max]

/-- A rule whose source-type total is 0 produces no entries. -/
lemma ruleEntries_zero_total {totals : String → ℚ} {emps : List Employee}
    {excl : Exclusions} {k : String} {c : DistConfigItem}
    (h0 : totals (c.sourceType.getD k) = 0) :
    ruleEntries totals emps excl k c = [] := by
  unfold ruleEntries
  rw [if_pos h0]

/-- A rule with no receivers produces no entries. -/
lemma ruleEntries_no_receivers {totals : String → ℚ} {emps : List Employee}
    {excl : Exclusions} {k : String} {c : DistConfigItem}
    (h : receiversOf c emps excl = []) :
    ruleEntries totals emps excl k c = [] := by
  unfold ruleEntries
  by_cases h0 : totals (c.sourceType.getD k) = 0
  · rw [if_pos h0]
  · rw [if_neg h0, if_pos (by rw [h]; rfl)]

/-- When its total is nonzero, a rule produces one entry per receiver. -/
lemma receiver_gets_entry {totals : String → ℚ} {emps : List Employee}
    {excl : Exclusions} {k : String} {c : DistConfigItem} {emp : Employee}
    (h0 : totals (c.sourceType.getD k) ≠ 0)
    (hm : emp ∈ receiversOf c emps excl) :
    ∃ r ∈ ruleEntries totals emps excl k c,
      r.employeeId = emp.id ∧ r.incentiveType = c.incentiveType ∧
      r.amount = round2 (totals (c.sourceType.getD k) * c.rate
        / ((max (divisionOf c emps excl).length 1 : ℕ) : ℚ)) := by
  have hlen : (receiversOf c emps excl).length ≠ 0 := by
    intro hz
    rw [List.length_eq_zero.mp hz] at hm
    exact List.not_mem_nil emp hm
  unfold ruleEntries
  rw [if_neg h0, if_neg hlen]
  refine ⟨_, List.mem_map_of_mem _ hm, rfl, rfl, ?_⟩
  simp only [divisor_eq_max]

/-- The five configured rules carry five distinct incentive types, so the
rule a run entry came from is determined by the entry's type. -/
lemma config_type_inj :
    ∀ kc1 ∈ DISTRIBUTION_CONFIG, ∀ kc2 ∈ DISTRIBUTION_CONFIG,
      (kc1 : String × DistConfigItem).2.incentiveType = kc2.2.incentiveType →
        kc1 = kc2 := by
  intro kc1 h1 kc2 h2 heq
  fin_cases h1 <;> fin_cases h2 <;>
    simp_all [groomingRule, surgeryRule, emergencyRule, confinementVetRule,
      confinementStaffRule]

/-- C1: per distribution rule — if the rule's source-type period total is
0, the run produces no entry of that rule's incentive type at all;
otherwise every entry of that rule's type carries the identical amount
round2((total × rate) ÷ max(divisionCount, 1)), and every receiver of the
rule gets such an entry. -/
theorem calculateDistributions_rule_amounts (totals : String → ℚ)
    (emps : List Employee) (excl : Exclusions) (ck : String) (cfg : DistConfigItem)
    (hmem : (ck, cfg) ∈ DISTRIBUTION_CONFIG) :
    (totals (cfg.sourceType.getD ck) = 0 →
      ∀ r ∈ calculateDistributions totals emps excl,
        r.incentiveType ≠ cfg.incentiveType)
    ∧ (totals (cfg.sourceType.getD ck) ≠ 0 →
      (∀ r ∈ calculateDistributions totals emps excl,
        r.incentiveType = cfg.incentiveType →
          r.amount = round2 (totals (cfg.sourceType.getD ck) * cfg.rate
            / ((max (divisionOf cfg emps excl).length 1 : ℕ) : ℚ)))
      ∧ ∀ emp ∈ receiversOf cfg emps excl,
          ∃ r ∈ calculateDistributions totals emps excl,
            r.employeeId = emp.id ∧ r.incentiveType = cfg.incentiveType ∧
            r.amount = round2 (totals (cfg.sourceType.getD ck) * cfg.rate
              / ((max (divisionOf cfg emps excl).length 1 : ℕ) : ℚ))) := by
  have hsame : ∀ {r : DistributionResult},
      r ∈ calculateDistributions totals emps excl →
      r.incentiveType = cfg.incentiveType →
        r ∈ ruleEntries totals emps excl ck cfg := by
    intro r hr hty
    obtain ⟨kc, hkc, hre⟩ := mem_calculateDistributions.mp hr
    have hkc2 : kc.2.incentiveType = cfg.incentiveType :=
      (ruleEntries_incentiveType hre) ▸ hty
    have := config_type_inj kc hkc (ck, cfg) hmem hkc2
    rw [this] at hre
    exact hre
  refine ⟨fun h0 r hr hty => ?_, fun h0 => ⟨fun r hr hty => ?_, fun emp hm => ?_⟩⟩
  · have := hsame hr hty
    rw [ruleEntries_zero_total h0] at this
    exact List.not_mem_nil r this
  · exact ruleEntries_amount (hsame hr hty)
  · obtain ⟨r, hre, h1, h2, h3⟩ := receiver_gets_entry h0 hm
    exact ⟨r, mem_calculateDistributions.mpr ⟨(ck, cfg), hmem, hre⟩, h1, h2, h3⟩

/-- Witness for C1: sheet totals of 10 everywhere and a roster with one
groomer; the GROOMING rule pays that groomer
round2((10 × 75) ÷ max(1, 1)). -/
theorem calculateDistributions_rule_amounts_witness :
    ∃ r ∈ calculateDistributions (fun _ => 10)
        [⟨1, "G", PositionType.GROOMER⟩] [],
      r.employeeId = 1 ∧ r.incentiveType = groomingRule.incentiveType ∧
      r.amount = round2 ((10 : ℚ) * groomingRule.rate
        / ((max (divisionOf groomingRule
            [⟨1, "G", PositionType.GROOMER⟩] []).length 1 : ℕ) : ℚ)) :=
  ((calculateDistributions_rule_amounts (fun _ => 10)
      [⟨1, "G", PositionType.GROOMER⟩] [] "GROOMING" groomingRule
      (List.mem_cons_self _ _)).2 (by norm_num)).2
    ⟨1, "G", PositionType.GROOMER⟩ (by decide)

/-- Adding an exclusion row for a different incentive type does not change
an exclusion lookup. -/
lemma isExcluded_cons_ne (excl : Exclusions) (i employeeId : ℕ) (t ty : String)
    (h : ty ≠ t) :
    isExcluded ((i, t) :: excl) employeeId ty = isExcluded excl employeeId ty := by
  unfold isExcluded
  rw [List.any_cons]
  have ht : (t == ty) = false := beq_eq_false_iff_ne.mpr fun hh => h hh.symm
  simp [ht]

/-- C2: eligibility resolution — receivers are exactly the non-excluded
roster employees in the rule's receiving positions; the division pool is
computed identically over the division positions (which default to the
receiving positions); the confinement-vet rule's division positions
strictly contain its receiving positions and its receivers are always in
its division pool; an exclusion removes the employee from both sets for
that incentive type while leaving every other type's sets unchanged. -/
theorem eligibility_resolution (emps : List Employee) (excl : Exclusions)
    (cfg : DistConfigItem) :
    (∀ e : Employee, e ∈ receiversOf cfg emps excl ↔
      e ∈ emps ∧ cfg.eligiblePositions.contains e.position = true
        ∧ isExcluded excl e.id cfg.incentiveType = false)
    ∧ (∀ e : Employee, e ∈ divisionOf cfg emps excl ↔
      e ∈ emps
        ∧ (cfg.divisionPositions.getD cfg.eligiblePositions).contains e.position = true
        ∧ isExcluded excl e.id cfg.incentiveType = false)
    ∧ confinementVetRule.eligiblePositions
        ⊆ confinementVetRule.divisionPositions.getD confinementVetRule.eligiblePositions
    ∧ ¬ (confinementVetRule.divisionPositions.getD confinementVetRule.eligiblePositions
        ⊆ confinementVetRule.eligiblePositions)
    ∧ (∀ e ∈ receiversOf confinementVetRule emps excl,
        e ∈ divisionOf confinementVetRule emps excl)
    ∧ (∀ e : Employee, isExcluded excl e.id cfg.incentiveType = true →
        e ∉ receiversOf cfg emps excl ∧ e ∉ divisionOf cfg emps excl)
    ∧ (∀ (i : ℕ) (t : String), cfg.incentiveType ≠ t →
        receiversOf cfg emps ((i, t) :: excl) = receiversOf cfg emps excl
        ∧ divisionOf cfg emps ((i, t) :: excl) = divisionOf cfg emps excl) := by
  refine ⟨fun e => ?_, fun e => ?_, by decide, by decide, fun e he => ?_,
    fun e hex => ?_, fun i t hne => ⟨?_, ?_⟩⟩
  · rw [receiversOf, List.mem_filter]
    simp [Bool.and_eq_true, Bool.not_eq_true']
  · rw [divisionOf, List.mem_filter]
    simp [Bool.and_eq_true, Bool.not_eq_true']
  · rw [receiversOf, List.mem_filter] at he
    rw [divisionOf, List.mem_filter]
    refine ⟨he.1, ?_⟩
    have h2 := he.2
    cases hpos : e.position <;>
      simp_all [confinementVetRule]
  · constructor
    · intro hmem
      rw [receiversOf, List.mem_filter] at hmem
      simp [hex] at hmem
    · intro hmem
      rw [divisionOf, List.mem_filter] at hmem
      simp [hex] at hmem
  · unfold receiversOf
    apply List.filter_congr
    intro e _
    rw [isExcluded_cons_ne excl i e.id t cfg.incentiveType hne]
  · unfold divisionOf
    apply List.filter_congr
    intro e _
    rw [isExcluded_cons_ne excl i e.id t cfg.incentiveType hne]

/-- Witness for C2: with a resident vet and a junior vet on the roster and
an unrelated exclusion row, the resident vet (the sole confinement-vet
receiver) is also counted in the confinement-vet division pool. -/
theorem eligibility_resolution_witness :
    (⟨1, "R", PositionType.RESIDENT_VETERINARIAN⟩ : Employee)
      ∈ divisionOf confinementVetRule
        [⟨1, "R", PositionType.RESIDENT_VETERINARIAN⟩,
         ⟨2, "J", PositionType.JUNIOR_VETERINARIAN⟩]
        [(3, "CONFINEMENT_VET")] :=
  (eligibility_resolution
    [⟨1, "R", PositionType.RESIDENT_VETERINARIAN⟩,
     ⟨2, "J", PositionType.JUNIOR_VETERINARIAN⟩]
    [(3, "CONFINEMENT_VET")] confinementVetRule).2.2.2.2.1
    ⟨1, "R", PositionType.RESIDENT_VETERINARIAN⟩ (by decide)

/-- C10: a rule whose receiver set is empty (after exclusions) produces no
distribution entries at all — the pooled amount is posted to nobody and
the divisor-1 fallback never pays it out. -/
theorem emptyReceivers_no_entries (totals : String → ℚ) (emps : List Employee)
    (excl : Exclusions) (ck : String) (cfg : DistConfigItem)
    (hmem : (ck, cfg) ∈ DISTRIBUTION_CONFIG)
    (hrec : receiversOf cfg emps excl = []) :
    ∀ r ∈ calculateDistributions totals emps excl,
      r.incentiveType ≠ cfg.incentiveType := by
  intro r hr hty
  obtain ⟨kc, hkc, hre⟩ := mem_calculateDistributions.mp hr
  have hkc2 : kc.2.incentiveType = cfg.incentiveType :=
    (ruleEntries_incentiveType hre) ▸ hty
  have := config_type_inj kc hkc (ck, cfg) hmem hkc2
  rw [this, ruleEntries_no_receivers hrec] at hre
  exact List.not_mem_nil r hre

/-- Witness for C10: a branch whose only employee is a nurse — nonzero
totals everywhere, yet the GROOMING rule (no eligible groomer) posts
nothing. -/
theorem emptyReceivers_no_entries_witness :
    (calculateDistributions (fun _ => 10)
      [⟨1, "Nurse", PositionType.VETERINARY_NURSE⟩] []).all
      (fun r => r.incentiveType != "GROOMING") = true := by
  rw [List.all_eq_true]
  intro r hr
  exact bne_iff_ne.mpr
    (emptyReceivers_no_entries (fun _ => 10)
      [⟨1, "Nurse", PositionType.VETERINARY_NURSE⟩] [] "GROOMING" groomingRule
      (List.mem_cons_self _ _) (by decide) r hr)

/-- No configured distribution rule carries the NURSING incentive type,
so a distribution run never emits a NURSING entry. -/
lemma no_nursing_entries (totals : String → ℚ) (emps : List Employee)
    (excl : Exclusions) :
    ∀ r ∈ calculateDistributions totals emps excl, r.incentiveType ≠ "NURSING" := by
  intro r hr
  obtain ⟨kc, hkc, hre⟩ := mem_calculateDistributions.mp hr
  have hty := ruleEntries_incentiveType hre
  rw [hty]
  fin_cases hkc <;>
    simp [groomingRule, surgeryRule, emergencyRule, confinementVetRule,
      confinementStaffRule]

/-- Counterexample to C9: NURSING is marked shared and is unpooled in the
per-employee path (5 × ₱80 = 400, not divided by the 4 eligible), but the
daily-sheet distribution path never pools it: even with nonzero totals and
an eligible nurse on the roster, the run emits no NURSING entry at all. -/
theorem groomingNursing_pooling_counterexample :
    isSharedIncentiveType "NURSING" = true
    ∧ (bulkIncentiveResult "NURSING" 5 0 80 "COUNT_MULTIPLY" 4).amount
        = round2 ((5 : ℚ) * 80)
    ∧ (calculateDistributions (fun _ => 10)
        [⟨1, "Nina", PositionType.VETERINARY_NURSE⟩] []).all
        (fun r => r.incentiveType != "NURSING") = true
    ∧ round2 ((5 : ℚ) * 80) ≠ round2 ((5 : ℚ) * 80 / 4) := by
  refine ⟨by decide, ?_, ?_, by norm_num [round2]⟩
  · norm_num [bulkIncentiveResult, isSharedIncentiveType, DEFAULT_INCENTIVE_CONFIG,
      calculateIncentive]
  · rw [List.all_eq_true]
    intro r hr
    exact bne_iff_ne.mpr (no_nursing_entries _ _ _ r hr)

/-- C9 amended: GROOMING and NURSING are both marked shared; the
per-employee bulk path computes their amounts unpooled (count × rate,
passing no divisor); the daily-sheet distribution path pools GROOMING
(total × 75 divided by the division count), while NURSING has no
distribution rule at all — the sheet run never emits a NURSING entry. -/
theorem groomingNursing_pooling_amended :
    isSharedIncentiveType "GROOMING" = true
    ∧ isSharedIncentiveType "NURSING" = true
    ∧ (∀ count inputValue rate : ℚ, ∀ n : ℕ,
        (bulkIncentiveResult "GROOMING" count inputValue rate "COUNT_MULTIPLY" n).amount
          = round2 (count * rate))
    ∧ (∀ count inputValue rate : ℚ, ∀ n : ℕ,
        (bulkIncentiveResult "NURSING" count inputValue rate "COUNT_MULTIPLY" n).amount
          = round2 (count * rate))
    ∧ (∀ (totals : String → ℚ) (emps : List Employee) (excl : Exclusions),
        ∀ r ∈ calculateDistributions totals emps excl,
          r.incentiveType = "GROOMING" →
            r.amount = round2 (totals "GROOMING" * 75
              / ((max (divisionOf groomingRule emps excl).length 1 : ℕ) : ℚ)))
    ∧ (∀ (totals : String → ℚ) (emps : List Employee) (excl : Exclusions),
        ∀ r ∈ calculateDistributions totals emps excl,
          r.incentiveType ≠ "NURSING") := by
  refine ⟨by decide, by decide, fun count iv rate n => ?_, fun count iv rate n => ?_,
    fun totals emps excl r hr hty => ?_, no_nursing_entries⟩
  · norm_num [bulkIncentiveResult, isSharedIncentiveType, DEFAULT_INCENTIVE_CONFIG,
      calculateIncentive]
  · norm_num [bulkIncentiveResult, isSharedIncentiveType, DEFAULT_INCENTIVE_CONFIG,
      calculateIncentive]
  · obtain ⟨kc, hkc, hre⟩ := mem_calculateDistributions.mp hr
    have hkc2 : kc.2.incentiveType = groomingRule.incentiveType :=
      (ruleEntries_incentiveType hre) ▸ hty
    have := config_type_inj kc hkc ("GROOMING", groomingRule)
      (List.mem_cons_self _ _) hkc2
    rw [this] at hre
    exact ruleEntries_amount hre

/-- Witness for the amended C9 at concrete inputs: bulk path GROOMING
5 × ₱75 = ₱375 and NURSING 5 × ₱80 = ₱400, both undivided despite 4
eligible employees, and a concrete sheet run emits no NURSING entry. -/
theorem groomingNursing_pooling_amended_witness :
    (bulkIncentiveResult "GROOMING" 5 0 75 "COUNT_MULTIPLY" 4).amount
      = round2 ((5 : ℚ) * 75)
    ∧ (bulkIncentiveResult "NURSING" 5 0 80 "COUNT_MULTIPLY" 4).amount
      = round2 ((5 : ℚ) * 80)
    ∧ (calculateDistributions (fun _ => 10)
        [⟨7, "Vet", PositionType.RESIDENT_VETERINARIAN⟩] []).all
        (fun r => r.incentiveType != "NURSING") = true :=
  ⟨groomingNursing_pooling_amended.2.2.1 5 0 75 4,
   groomingNursing_pooling_amended.2.2.2.1 5 0 80 4,
   by
    rw [List.all_eq_true]
    intro r hr
    exact bne_iff_ne.mpr
      (groomingNursing_pooling_amended.2.2.2.2.2 (fun _ => 10)
        [⟨7, "Vet", PositionType.RESIDENT_VETERINARIAN⟩] [] r hr)⟩

-- ===== lemmas towards idempotence of the distribute handler (C3) =====

/-- Prisma `findFirst` on the incentive rows of one payroll, by type. -/
def firstRowOfType (l : List IncRow) (t : String) : Option IncRow :=
  l.find? fun r => r.type == t

/-- The row `updateFirstRow` writes over a matching row. -/
def writtenRow (r : IncRow) (d : DistributionResult) : IncRow :=
  { r with count := d.total, rate := d.rate, amount := round2 d.amount, formula := d.formula }

lemma updateFirstRow_cons (r : IncRow) (rs : List IncRow) (d : DistributionResult) :
    updateFirstRow (r :: rs) d
      = if (r.type == d.incentiveType) = true then writtenRow r d :: rs
        else r :: updateFirstRow rs d := rfl

lemma writtenRow_eq_distIncRow {r : IncRow} {d : DistributionResult}
    (h : r.type = d.incentiveType) : writtenRow r d = distIncRow d := by
  simp [writtenRow, distIncRow, h]

lemma updateFirstRow_find {l : List IncRow} {d : DistributionResult}
    (hany : l.any (fun r => r.type == d.incentiveType) = true) :
    firstRowOfType (updateFirstRow l d) d.incentiveType = some (distIncRow d) := by
  induction l with
  | nil => simp at hany
  | cons r rs ih =>
    rw [updateFirstRow_cons]
    by_cases hr : (r.type == d.incentiveType) = true
    · rw [if_pos hr]
      unfold firstRowOfType
      rw [List.find?_cons]
      have hwt : ((writtenRow r d).type == d.incentiveType) = true := hr
      rw [hwt, writtenRow_eq_distIncRow (beq_iff_eq.mp hr)]
    · rw [if_neg hr]
      unfold firstRowOfType
      rw [List.find?_cons]
      have hrb : (r.type == d.incentiveType) = false := Bool.not_eq_true _ ▸ hr
      rw [hrb]
      apply ih
      rcases List.any_eq_true.mp hany with ⟨x, hx, hpx⟩
      rcases List.mem_cons.mp hx with rfl | hxs
      · exact absurd hpx hr
      · exact List.any_eq_true.mpr ⟨x, hxs, hpx⟩

/-- After an upsert, the first row of the entry's type is exactly the row
the handler writes. -/
lemma upsertIncRow_find {l : List IncRow} {d : DistributionResult} :
    firstRowOfType (upsertIncRow l d) d.incentiveType = some (distIncRow d) := by
  unfold upsertIncRow
  by_cases hany : l.any (fun r => r.type == d.incentiveType) = true
  · rw [if_pos hany]
    exact updateFirstRow_find hany
  · rw [if_neg hany]
    unfold firstRowOfType
    rw [List.find?_append]
    have hnone : l.find? (fun r => r.type == d.incentiveType) = none := by
      rw [List.find?_eq_none]
      intro x hx hpx
      exact hany (List.any_eq_true.mpr ⟨x, hx, hpx⟩)
    rw [hnone]
    simp [distIncRow]

lemma updateFirstRow_find_other {l : List IncRow} {d : DistributionResult} {t : String}
    (ht : t ≠ d.incentiveType) :
    firstRowOfType (updateFirstRow l d) t = firstRowOfType l t := by
  induction l with
  | nil => rfl
  | cons r rs ih =>
    rw [updateFirstRow_cons]
    by_cases hr : (r.type == d.incentiveType) = true
    · rw [if_pos hr]
      unfold firstRowOfType
      rw [List.find?_cons, List.find?_cons]
      have hty : r.type = d.incentiveType := beq_iff_eq.mp hr
      have hrt : (r.type == t) = false :=
        beq_eq_false_iff_ne.mpr (by rw [hty]; exact fun hh => ht hh.symm)
      have hrt2 : ((writtenRow r d).type == t) = false := hrt
      rw [hrt, hrt2]
    · rw [if_neg hr]
      unfold firstRowOfType
      rw [List.find?_cons, List.find?_cons]
      cases hrt : (r.type == t) with
      | true => rfl
      | false => exact ih

/-- An upsert leaves the first row of every other type untouched. -/
lemma upsertIncRow_find_other {l : List IncRow} {d : DistributionResult} {t : String}
    (ht : t ≠ d.incentiveType) :
    firstRowOfType (upsertIncRow l d) t = firstRowOfType l t := by
  unfold upsertIncRow
  by_cases hany : l.any (fun r => r.type == d.incentiveType) = true
  · rw [if_pos hany]
    exact updateFirstRow_find_other ht
  · rw [if_neg hany]
    unfold firstRowOfType
    rw [List.find?_append]
    have hlast : List.find? (fun r => r.type == t) [distIncRow d] = none := by
      rw [List.find?_eq_none]
      intro x hx
      rw [List.mem_singleton.mp hx]
      exact fun hpx => ht (beq_iff_eq.mp hpx).symm
    rw [hlast]
    cases List.find? (fun r => r.type == t) l <;> rfl

/-- If the first row of the entry's type already holds exactly the values
the handler would write, the upsert is a no-op. -/
lemma updateFirstRow_id {l : List IncRow} {d : DistributionResult}
    (h : firstRowOfType l d.incentiveType = some (distIncRow d)) :
    updateFirstRow l d = l := by
  induction l with
  | nil => rfl
  | cons r rs ih =>
    unfold firstRowOfType at h
    rw [List.find?_cons] at h
    rw [updateFirstRow_cons]
    by_cases hr : (r.type == d.incentiveType) = true
    · rw [if_pos hr]
      rw [hr] at h
      have hrd : r = distIncRow d := Option.some_injective _ h
      rw [writtenRow_eq_distIncRow (beq_iff_eq.mp hr), hrd]
    · rw [if_neg hr]
      have hrb : (r.type == d.incentiveType) = false := Bool.not_eq_true _ ▸ hr
      rw [hrb] at h
      rw [ih h]

lemma upsertIncRow_id {l : List IncRow} {d : DistributionResult}
    (h : firstRowOfType l d.incentiveType = some (distIncRow d)) :
    upsertIncRow l d = l := by
  have hfind : l.find? (fun r => r.type == d.incentiveType) = some (distIncRow d) := h
  have hp := List.find?_some hfind
  have hany : l.any (fun r => r.type == d.incentiveType) = true :=
    List.any_eq_true.mpr ⟨distIncRow d, List.mem_of_find?_eq_some hfind, hp⟩
  unfold upsertIncRow
  rw [if_pos hany]
  exact updateFirstRow_id h

/-- Applying one distribution entry never changes payroll ids or employee
ids — only incentive rows. -/
lemma applyDistribution_skeleton (ps : List PayrollRow) (d : DistributionResult) :
    (applyDistribution ps d).map (fun p => (p.pid, p.employeeId))
      = ps.map (fun p => (p.pid, p.employeeId)) := by
  unfold applyDistribution
  cases h : lookupPayrollId ps d.employeeId with
  | none => rfl
  | some pid =>
    rw [List.map_map]
    apply List.map_congr_left
    intro p _
    by_cases hp : (p.pid == pid) = true
    · show (fun p => (p.pid, p.employeeId))
        (if (p.pid == pid) = true
          then { p with incentives := upsertIncRow p.incentives d } else p)
        = (p.pid, p.employeeId)
      rw [if_pos hp]
    · show (fun p => (p.pid, p.employeeId))
        (if (p.pid == pid) = true
          then { p with incentives := upsertIncRow p.incentives d } else p)
        = (p.pid, p.employeeId)
      rw [if_neg hp]

/-- Function `lookupPayrollId` only reads the (pid, employeeId) skeleton. -/
lemma lookupPayrollId_skeleton (ps : List PayrollRow) (eid : ℕ) :
    lookupPayrollId ps eid
      = (((ps.map (fun p => (p.pid, p.employeeId))).filter
          (fun q => q.2 == eid)).map Prod.fst).getLast? := by
  unfold lookupPayrollId
  rw [List.filter_map, List.map_map]
  rfl

lemma lookupPayrollId_applyDistribution (ps : List PayrollRow)
    (d : DistributionResult) (eid : ℕ) :
    lookupPayrollId (applyDistribution ps d) eid = lookupPayrollId ps eid := by
  rw [lookupPayrollId_skeleton, lookupPayrollId_skeleton,
    applyDistribution_skeleton]

lemma applyDistribution_pids (ps : List PayrollRow) (d : DistributionResult) :
    (applyDistribution ps d).map PayrollRow.pid = ps.map PayrollRow.pid := by
  have h := congrArg (List.map Prod.fst) (applyDistribution_skeleton ps d)
  rw [List.map_map, List.map_map] at h
  exact h

/-- A successful payroll lookup returns the id of a roster payroll with
the looked-up employee. -/
lemma lookupPayrollId_mem {ps : List PayrollRow} {eid pid : ℕ}
    (h : lookupPayrollId ps eid = some pid) :
    ∃ q ∈ ps, q.pid = pid ∧ q.employeeId = eid := by
  unfold lookupPayrollId at h
  have hmem := List.mem_of_mem_getLast? h
  obtain ⟨q, hq, hqpid⟩ := List.mem_map.mp hmem
  have hf := List.mem_filter.mp hq
  exact ⟨q, hf.1, hqpid, beq_iff_eq.mp hf.2⟩

/-- Predicate `settled d ps`: the payroll targeted by entry `d` (if any) already
stores exactly the incentive row `d` would write, as the first row of its
type. -/
def settled (d : DistributionResult) (ps : List PayrollRow) : Prop :=
  ∀ p ∈ ps, lookupPayrollId ps d.employeeId = some p.pid →
    firstRowOfType p.incentives d.incentiveType = some (distIncRow d)

/-- Applying an entry that is already settled changes nothing. -/
lemma applyDistribution_of_settled {d : DistributionResult} {ps : List PayrollRow}
    (hs : settled d ps) : applyDistribution ps d = ps := by
  unfold applyDistribution
  cases h : lookupPayrollId ps d.employeeId with
  | none => rfl
  | some pid =>
    show ps.map (fun p =>
      if (p.pid == pid) = true
        then { p with incentives := upsertIncRow p.incentives d } else p) = ps
    conv_rhs => rw [← List.map_id ps]
    apply List.map_congr_left
    intro p hp
    by_cases hpid : (p.pid == pid) = true
    · rw [if_pos hpid]
      have hrow := hs p hp (by rw [h, beq_iff_eq.mp hpid])
      rw [upsertIncRow_id hrow]
      rfl
    · rw [if_neg hpid]
      rfl

/-- Applying an entry settles it. -/
lemma settled_applyDistribution (d : DistributionResult) (ps : List PayrollRow) :
    settled d (applyDistribution ps d) := by
  intro p' hp' hlk'
  rw [lookupPayrollId_applyDistribution] at hlk'
  unfold applyDistribution at hp'
  cases h : lookupPayrollId ps d.employeeId with
  | none =>
    rw [h] at hp'
    exact absurd (hlk'.symm.trans h) (by simp)
  | some pid =>
    rw [h] at hp'
    have hpid : pid = p'.pid := Option.some_injective _ (h.symm.trans hlk')
    obtain ⟨p, hp, hgp⟩ := List.mem_map.mp hp'
    by_cases hb : (p.pid == pid) = true
    · rw [if_pos hb] at hgp
      rw [← hgp]
      exact upsertIncRow_find
    · rw [if_neg hb] at hgp
      exact absurd (by rw [hgp, ← hpid]) (beq_eq_false_iff_ne.mp (Bool.not_eq_true _ ▸ hb))

/-- Applying an entry with a different (employee, type) key preserves
settledness, provided payroll ids are unique. -/
lemma settled_preserved {d d' : DistributionResult} {ps : List PayrollRow}
    (hnd : (ps.map PayrollRow.pid).Nodup)
    (hkey : d'.employeeId ≠ d.employeeId ∨ d'.incentiveType ≠ d.incentiveType)
    (hs : settled d ps) : settled d (applyDistribution ps d') := by
  intro p' hp' hlk'
  rw [lookupPayrollId_applyDistribution] at hlk'
  unfold applyDistribution at hp'
  cases h : lookupPayrollId ps d'.employeeId with
  | none =>
    rw [h] at hp'
    exact hs p' hp' hlk'
  | some pid' =>
    rw [h] at hp'
    obtain ⟨p, hp, hgp⟩ := List.mem_map.mp hp'
    by_cases hb : (p.pid == pid') = true
    · rw [if_pos hb] at hgp
      have hppid : p'.pid = p.pid := by rw [← hgp]
      rcases hkey with hne | hne
      · -- distinct employees: the d-target and the d'-target would be the
        -- same payroll, contradicting id uniqueness
        exfalso
        obtain ⟨q, hq, hqpid, hqeid⟩ := lookupPayrollId_mem hlk'
        obtain ⟨q', hq', hqpid', hqeid'⟩ := lookupPayrollId_mem h
        have hqq : q = q' := by
          apply List.inj_on_of_nodup_map hnd hq hq'
          rw [hqpid, hqpid', hppid, beq_iff_eq.mp hb]
        exact hne (by rw [← hqeid', ← hqq, hqeid])
      · -- distinct incentive types: the first row of d's type is untouched
        rw [← hgp]
        have hother : firstRowOfType (upsertIncRow p.incentives d') d.incentiveType
            = firstRowOfType p.incentives d.incentiveType :=
          upsertIncRow_find_other (fun hh => hne hh.symm)
        rw [hother]
        exact hs p hp (by rw [hlk', hppid])
    · rw [if_neg hb] at hgp
      rw [← hgp]
      exact hs p hp (by rw [hlk', hgp])

lemma settled_preserved_list {d : DistributionResult} {ds : List DistributionResult}
    {ps : List PayrollRow} (hnd : (ps.map PayrollRow.pid).Nodup)
    (hkeys : ∀ d' ∈ ds, d'.employeeId ≠ d.employeeId ∨ d'.incentiveType ≠ d.incentiveType)
    (hs : settled d ps) : settled d (applyDistributions ps ds) := by
  induction ds generalizing ps with
  | nil => exact hs
  | cons d0 rest ih =>
    show settled d (applyDistributions (applyDistribution ps d0) rest)
    apply ih
    · rw [applyDistribution_pids]
      exact hnd
    · intro d' hd'
      exact hkeys d' (List.mem_cons_of_mem _ hd')
    · exact settled_preserved hnd (hkeys d0 (List.mem_cons_self _ _)) hs

/-- After one full pass, every applied entry is settled (given unique
payroll ids and pairwise-distinct (employee, type) keys). -/
lemma applyDistributions_settled (ds : List DistributionResult)
    (ps : List PayrollRow) (hnd : (ps.map PayrollRow.pid).Nodup)
    (hpw : ds.Pairwise
      (fun a b => a.employeeId ≠ b.employeeId ∨ a.incentiveType ≠ b.incentiveType)) :
    ∀ d ∈ ds, settled d (applyDistributions ps ds) := by
  induction ds generalizing ps with
  | nil => intro d hd; cases hd
  | cons d0 rest ih =>
    intro d hd
    have hhead := (List.pairwise_cons.mp hpw).1
    have htail := (List.pairwise_cons.mp hpw).2
    rcases List.mem_cons.mp hd with rfl | hdr
    · show settled d (applyDistributions (applyDistribution ps d) rest)
      apply settled_preserved_list
      · rw [applyDistribution_pids]
        exact hnd
      · intro d' hd'
        rcases hhead d' hd' with hne | hne
        · exact Or.inl hne.symm
        · exact Or.inr hne.symm
      · exact settled_applyDistribution d ps
    · show settled d (applyDistributions (applyDistribution ps d0) rest)
      apply ih
      · rw [applyDistribution_pids]
        exact hnd
      · exact htail
      · exact hdr

/-- A pass over entries that are all settled is the identity. -/
lemma applyDistributions_of_settled {ds : List DistributionResult}
    {ps : List PayrollRow} (hs : ∀ d ∈ ds, settled d ps) :
    applyDistributions ps ds = ps := by
  induction ds with
  | nil => rfl
  | cons d0 rest ih =>
    show applyDistributions (applyDistribution ps d0) rest = ps
    rw [applyDistribution_of_settled (hs d0 (List.mem_cons_self _ _))]
    exact ih fun d hd => hs d (List.mem_cons_of_mem _ hd)

lemma pairwise_foldr_append {α β : Type} (R : β → β → Prop) (f : α → List β)
    (L : List α) (h1 : ∀ a ∈ L, (f a).Pairwise R)
    (h2 : L.Pairwise fun a b => ∀ x ∈ f a, ∀ y ∈ f b, R x y) :
    (L.foldr (fun a acc => f a ++ acc) []).Pairwise R := by
  induction L with
  | nil => exact List.Pairwise.nil
  | cons a L ih =>
    show ((f a) ++ L.foldr (fun a acc => f a ++ acc) []).Pairwise R
    apply List.pairwise_append.mpr
    refine ⟨h1 a (List.mem_cons_self _ _),
      ih (fun b hb => h1 b (List.mem_cons_of_mem _ hb)) h2.of_cons, ?_⟩
    intro x hx y hy
    obtain ⟨b, hb, hyb⟩ := (mem_foldr_append f L y).mp hy
    exact (List.pairwise_cons.mp h2).1 b hb x hx y hyb

/-- Entries of one rule go to pairwise-distinct employees when the roster
has no duplicate employee ids. -/
lemma ruleEntries_pairwise {totals : String → ℚ} {emps : List Employee}
    {excl : Exclusions} {k : String} {c : DistConfigItem}
    (h : (emps.map Employee.id).Nodup) :
    (ruleEntries totals emps excl k c).Pairwise
      (fun a b => a.employeeId ≠ b.employeeId ∨ a.incentiveType ≠ b.incentiveType) := by
  unfold ruleEntries
  by_cases h0 : totals (c.sourceType.getD k) = 0
  · rw [if_pos h0]
    exact List.Pairwise.nil
  · rw [if_neg h0]
    by_cases hr : (receiversOf c emps excl).length = 0
    · rw [if_pos hr]
      exact List.Pairwise.nil
    · rw [if_neg hr]
      rw [List.pairwise_map]
      have hnod : ((receiversOf c emps excl).map Employee.id).Nodup :=
        List.Nodup.sublist (List.Sublist.map _ (List.filter_sublist emps)) h
      have hpw : (receiversOf c emps excl).Pairwise fun a b => a.id ≠ b.id :=
        List.pairwise_map.mp hnod
      exact hpw.imp fun hab => Or.inl hab

/-- The five configured rules carry pairwise distinct incentive types. -/
lemma config_types_pairwise :
    DISTRIBUTION_CONFIG.Pairwise
      (fun a b => a.2.incentiveType ≠ b.2.incentiveType) := by
  decide

/-- Entries of one run have pairwise-distinct (employee, incentive type)
keys when the roster has no duplicate employee ids. -/
lemma calculateDistributions_keys_pairwise {totals : String → ℚ}
    {emps : List Employee} {excl : Exclusions}
    (h : (emps.map Employee.id).Nodup) :
    (calculateDistributions totals emps excl).Pairwise
      (fun a b => a.employeeId ≠ b.employeeId ∨ a.incentiveType ≠ b.incentiveType) := by
  unfold calculateDistributions
  apply pairwise_foldr_append
  · intro kc _
    exact ruleEntries_pairwise h
  · exact config_types_pairwise.imp fun hne => fun x hx y hy =>
      Or.inr (by rw [ruleEntries_incentiveType hx, ruleEntries_incentiveType hy]; exact hne)

/-- C3: running the distribute handler twice with the same sheet totals,
roster, exclusions and payroll list writes exactly the same incentive
rows as running it once — the second run finds each row already present
and overwrites it with identical values, never stacking amounts.  The
hypotheses state the database uniqueness invariants: payroll ids and
roster employee ids are unique.  The subsequent totals recalculation is a
deterministic function of the rows and the (unchanged) attendance fields,
so equal rows give equal recalculated totals. -/
theorem distributeRun_idempotent (totals : String → ℚ) (emps : List Employee)
    (excl : Exclusions) (ps : List PayrollRow)
    (hpid : (ps.map PayrollRow.pid).Nodup)
    (hemp : (emps.map Employee.id).Nodup) :
    distributeRun totals emps excl (distributeRun totals emps excl ps)
      = distributeRun totals emps excl ps := by
  unfold distributeRun
  exact applyDistributions_of_settled
    (applyDistributions_settled _ ps hpid (calculateDistributions_keys_pairwise hemp))

/-- Witness for C3: one groomer, one payroll, totals of 10 — the second
distribute run leaves the state of the first run unchanged. -/
theorem distributeRun_idempotent_witness :
    distributeRun (fun _ => 10) [⟨1, "G", PositionType.GROOMER⟩] []
      (distributeRun (fun _ => 10) [⟨1, "G", PositionType.GROOMER⟩] []
        [⟨1, 1, []⟩])
    = distributeRun (fun _ => 10) [⟨1, "G", PositionType.GROOMER⟩] []
        [⟨1, 1, []⟩] :=
  distributeRun_idempotent (fun _ => 10) [⟨1, "G", PositionType.GROOMER⟩] []
    [⟨1, 1, []⟩] (by decide) (by decide)

end PetHub
